import Mathlib

/-!
Verification of `src/name-constraints-encoder.py`, a tool that encodes the
X.509 Name Constraints extension from CLI-supplied permitted/excluded DNS and
URI subtree lists and wraps the base64 of the DER bytes in a fixed JSON
envelope.

The Python `main` is embedded with an explicit store of list objects so that
the assignment `excluded_subtrees = [] if excluded_subtrees is None else
permitted_subtrees` keeps its aliasing semantics: after it, appends through
the excluded variable mutate the very list the permitted variable points to.

The behaviour of the third-party `cryptography` library (name validation,
`NameConstraints(...).public_bytes()` DER serialization) and of
`base64.b64encode` is not part of the repository's sources; those parts are
modelled from the specification (marked `Modelled from the spec:`).
-/

namespace NCE

/-- GeneralName: the two variants this tool uses, `cryptography.x509.DNSName`
and `cryptography.x509.UniformResourceIdentifier`, each wrapping a string. -/
inductive GeneralName where
  | dnsName (value : String)
  | uri (value : String)
deriving DecidableEq, Repr

/-- Errors a run can raise: the explicit `ValueError` for zero supplied
constraints (the spec's `ConfigurationError`), rejection of a syntactically
invalid name at `GeneralName` construction (the spec's `InvalidNameError`),
Python's `AttributeError` from calling `.append` on `None`, and rejection of
an entirely empty constraint set at encoding time. -/
inductive PyError where
  | configurationError
  | invalidNameError
  | attributeError
  | emptyConstraintsError
deriving DecidableEq, Repr

/-- Modelled from the spec: the underlying DNS name grammar used by the
library at `DNSName` construction (library code is not in the sources).
A DNS subtree pattern is a non-empty string of ASCII letters, digits,
hyphens, dots and wildcard stars; in particular an embedded space or any
scheme syntax such as `:` or `/` is rejected. -/
def validDNSName (s : String) : Bool :=
  !s.data.isEmpty && s.data.all (fun c => c.isAlphanum || c = '-' || c = '.' || c = '*')

/-- Split a character list at the first `://`, returning the characters
before it and after it. -/
def findScheme : List Char → Option (List Char × List Char)
  | [] => none
  | ':' :: '/' :: '/' :: rest => some ([], rest)
  | c :: rest =>
      match findScheme rest with
      | some (sch, r) => some (c :: sch, r)
      | none => none

/-- Modelled from the spec: the underlying URI grammar used by the library at
`UniformResourceIdentifier` construction (library code is not in the
sources). A URI must be a well-formed scheme-qualified identifier: a
non-empty all-letter scheme, the `://` separator, a non-empty remainder, and
only non-space ASCII (IA5) characters throughout. -/
def validUri (s : String) : Bool :=
  match findScheme s.data with
  | some (scheme, rest) =>
      !scheme.isEmpty && scheme.all Char.isAlpha &&
      !rest.isEmpty && s.data.all (fun c => c.toNat < 128 && c ≠ ' ')
  | none => false

/-- `cryptography.x509.DNSName(s)`: yields a DNS-variant GeneralName, or
raises `InvalidNameError` when `s` is not a valid DNS name. -/
def DNSName (s : String) : Except PyError GeneralName :=
  if validDNSName s then .ok (.dnsName s) else .error .invalidNameError

/-- `cryptography.x509.UniformResourceIdentifier(s)`: yields a URI-variant
GeneralName, or raises `InvalidNameError` when `s` is not a valid URI. -/
def UniformResourceIdentifier (s : String) : Except PyError GeneralName :=
  if validUri s then .ok (.uri s) else .error .invalidNameError

/-- A store of Python list objects; variables hold indices into the heap, so
two variables bound to the same index alias the same mutable list. -/
structure Store where
  heap : List (List GeneralName)
deriving DecidableEq, Repr

/-- Allocate a fresh empty list object, returning the new store and its index. -/
def Store.alloc (st : Store) : Store × Nat :=
  (⟨st.heap ++ [[]]⟩, st.heap.length)

/-- Read the list object at index `i`. -/
def Store.get (st : Store) (i : Nat) : List GeneralName :=
  st.heap.getD i []

/-- `lst.append(g)` on the list object at index `i`. -/
def Store.push (st : Store) (i : Nat) (g : GeneralName) : Store :=
  ⟨st.heap.set i (st.heap.getD i [] ++ [g])⟩

/-- The loop `for x in entries: lst.append(Ctor(x))`: constructs each entry
with `mk` (which may raise `InvalidNameError`) and appends it, in order, to
the list object at index `i`. -/
def appendEntries (st : Store) (i : Nat) (mk : String → Except PyError GeneralName) :
    List String → Except PyError Store
  | [] => .ok st
  | e :: rest =>
      match mk e with
      | .error err => .error err
      | .ok g => appendEntries (st.push i g) i mk rest

/-- Append a ready-made list of GeneralNames to the object at index `i`
(specification of what a successful `appendEntries` does to the store). -/
def appendList (st : Store) (i : Nat) : List GeneralName → Store
  | [] => st
  | g :: gs => appendList (st.push i g) i gs

/-- Python's `s.split(",")` on the character list: splits at every comma,
keeping empty pieces and never trimming whitespace. -/
def splitCommaChars : List Char → List (List Char)
  | [] => [[]]
  | c :: rest =>
      match splitCommaChars rest with
      | [] => [[]]
      | grp :: grps => if c = ',' then [] :: grp :: grps else (c :: grp) :: grps

/-- Python's `s.split(",")`: comma-separated pieces of `s`, in order, with
no trimming of embedded whitespace. -/
def splitComma (s : String) : List String :=
  (splitCommaChars s.data).map fun l => ⟨l⟩

/-- Python truthiness of an `argparse` string option: `None` and the empty
string are falsy. -/
def truthy : Option String → Bool
  | none => false
  | some s => !s.data.isEmpty

/-- The four CLI options `--DnsPermitted`, `--DnsExcluded`, `--UriPermitted`,
`--UriExcluded`; each is `none` when absent. -/
structure Args where
  DnsPermitted : Option String
  DnsExcluded : Option String
  UriPermitted : Option String
  UriExcluded : Option String
deriving DecidableEq, Repr

/-- The state of `main`'s two variables `permitted_subtrees` and
`excluded_subtrees` (each `None` or an index of a list object) together with
the store of list objects. -/
structure MState where
  st : Store
  permitted : Option Nat
  excluded : Option Nat
deriving DecidableEq, Repr

/-- The lists finally passed to `encode_name_constraints`: the contents of
the objects the two variables point to at the end of `main`'s four blocks. -/
structure Subtrees where
  permitted : Option (List GeneralName)
  excluded : Option (List GeneralName)
deriving DecidableEq, Repr

/-- One permitted block of `main`:
`permitted_subtrees = [] if permitted_subtrees is None else permitted_subtrees`
followed by the append loop over `v.split(",")`, guarded by truthiness of the
option. -/
def permittedBlock (v : Option String) (mk : String → Except PyError GeneralName)
    (s : MState) : Except PyError MState :=
  if truthy v then
    let p := match s.permitted with
      | none => let r := s.st.alloc; (r.1, some r.2)
      | some i => (s.st, some i)
    match p.2 with
    | none => .error .attributeError
    | some i =>
        match appendEntries p.1 i mk (splitComma (v.getD "")) with
        | .ok st2 => .ok ⟨st2, some i, s.excluded⟩
        | .error e => .error e
  else .ok s

/-- One excluded block of `main`, with the source's buggy initializer
`excluded_subtrees = [] if excluded_subtrees is None else permitted_subtrees`:
when the excluded variable is already bound, it is re-bound to whatever the
permitted variable holds — `None` (so the subsequent `.append` raises
`AttributeError`) or the very same list object the permitted variable points
to (aliasing). Then the append loop over `v.split(",")` runs. -/
def excludedBlock (v : Option String) (mk : String → Except PyError GeneralName)
    (s : MState) : Except PyError MState :=
  if truthy v then
    let p := match s.excluded with
      | none => let r := s.st.alloc; (r.1, some r.2)
      | some _ => (s.st, s.permitted)
    match p.2 with
    | none => .error .attributeError
    | some i =>
        match appendEntries p.1 i mk (splitComma (v.getD "")) with
        | .ok st2 => .ok ⟨st2, s.permitted, some i⟩
        | .error e => .error e
  else .ok s

/-- The constraint-building part of `main`: the zero-flags check, then the
four blocks in source order (DnsPermitted, DnsExcluded, UriPermitted,
UriExcluded), returning the lists handed to `encode_name_constraints`. -/
def runMain (args : Args) : Except PyError Subtrees :=
  if !truthy args.DnsPermitted && !truthy args.DnsExcluded
      && !truthy args.UriPermitted && !truthy args.UriExcluded then
    .error .configurationError
  else
    match permittedBlock args.DnsPermitted DNSName ⟨⟨[]⟩, none, none⟩ with
    | .error e => .error e
    | .ok s1 =>
      match excludedBlock args.DnsExcluded DNSName s1 with
      | .error e => .error e
      | .ok s2 =>
        match permittedBlock args.UriPermitted UniformResourceIdentifier s2 with
        | .error e => .error e
        | .ok s3 =>
          match excludedBlock args.UriExcluded UniformResourceIdentifier s3 with
          | .error e => .error e
          | .ok s4 => .ok ⟨s4.permitted.map s4.st.get, s4.excluded.map s4.st.get⟩

/-- Big-endian base-256 digits of `n` (minimal, so `beBytes 0 = [0]`), used
for DER long-form lengths. -/
def beBytes (n : Nat) : List Nat :=
  if _h : n < 256 then [n]
  else beBytes (n / 256) ++ [n % 256]
termination_by n
decreasing_by exact Nat.div_lt_self (by omega) (by omega)

/-- Modelled from the spec: DER definite-length octets — short form below
128, otherwise `0x80 + k` followed by the `k` big-endian value octets. -/
def derLen (n : Nat) : List Nat :=
  if n < 128 then [n] else (128 + (beBytes n).length) :: beBytes n

/-- Modelled from the spec: a DER tag-length-value triple. -/
def tlv (tag : Nat) (content : List Nat) : List Nat :=
  tag :: (derLen content.length ++ content)

/-- The IA5String content octets of a name value (all names this tool
accepts are ASCII, where the UTF-8 byte equals the character code). -/
def strBytes (s : String) : List Nat := s.data.map Char.toNat

/-- Modelled from the spec: DER of a GeneralName — DNS names as IA5String
with context tag 2 (0x82), URIs as IA5String with context tag 6 (0x86). -/
def encodeGeneralName : GeneralName → List Nat
  | .dnsName s => tlv 0x82 (strBytes s)
  | .uri s => tlv 0x86 (strBytes s)

/-- Modelled from the spec: DER of a GeneralSubtree — a SEQUENCE wrapping
the single GeneralName, with no minimum/maximum fields emitted. -/
def encodeGeneralSubtree (g : GeneralName) : List Nat :=
  tlv 0x30 (encodeGeneralName g)

/-- Modelled from the spec: one optional subtrees field — a SEQUENCE OF
GeneralSubtree under the given implicit tag (0xA0 permitted, 0xA1 excluded),
omitted entirely when the sequence is absent or empty. -/
def subtreesField (tag : Nat) : Option (List GeneralName) → List Nat
  | none => []
  | some gs => if gs.isEmpty then [] else tlv tag (gs.map encodeGeneralSubtree).flatten

/-- Modelled from the spec: `NameConstraints(permitted, excluded).public_bytes()`
— the outer SEQUENCE holding the optional permittedSubtrees ([0]) and
excludedSubtrees ([1]) fields (library code is not in the sources). -/
def encodeNameConstraints (p e : Option (List GeneralName)) : List Nat :=
  tlv 0x30 (subtreesField 0xA0 p ++ subtreesField 0xA1 e)

/-- Modelled from the spec: an entirely empty constraint set is invalid and
is rejected before encoding. -/
def encodeNameConstraintsE (p e : Option (List GeneralName)) :
    Except PyError (List Nat) :=
  if (p.getD []).isEmpty && (e.getD []).isEmpty then .error .emptyConstraintsError
  else .ok (encodeNameConstraints p e)

/-- The standard base64 alphabet, by index. -/
def b64Char (n : Nat) : Char :=
  "ABCDEFGHIJKLMNOPQRSTUVWXYZabcdefghijklmnopqrstuvwxyz0123456789+/".data.getD n '?'

/-- Modelled from the spec: `base64.b64encode` — standard (non-URL-safe)
alphabet with `=` padding, three input bytes per four output characters. -/
def b64EncodeCore : List Nat → List Char
  | b1 :: b2 :: b3 :: rest =>
      b64Char (b1 / 4) :: b64Char (b1 % 4 * 16 + b2 / 16) ::
      b64Char (b2 % 16 * 4 + b3 / 64) :: b64Char (b3 % 64) :: b64EncodeCore rest
  | [b1, b2] => [b64Char (b1 / 4), b64Char (b1 % 4 * 16 + b2 / 16), b64Char (b2 % 16 * 4), '=']
  | [b1] => [b64Char (b1 / 4), b64Char (b1 % 4 * 16), '=', '=']
  | [] => []

/-- Standard base64 of a byte list, as a string. -/
def b64Encode (bs : List Nat) : String := ⟨b64EncodeCore bs⟩

/-- Index of a character in the standard base64 alphabet, `none` for
anything else (including `=`). -/
def b64CharVal (c : Char) : Option Nat :=
  let idx := "ABCDEFGHIJKLMNOPQRSTUVWXYZabcdefghijklmnopqrstuvwxyz0123456789+/".data.indexOf c
  if idx < 64 then some idx else none

/-- Standard base64 decoding of a character list, rejecting anything that is
not well-formed padded base64. -/
def b64DecodeCore : List Char → Option (List Nat)
  | [] => some []
  | c1 :: c2 :: c3 :: c4 :: rest =>
      match b64CharVal c1, b64CharVal c2 with
      | some v1, some v2 =>
          if c3 = '=' then
            if c4 = '=' then
              match rest with
              | [] => if v2 % 16 = 0 then some [v1 * 4 + v2 / 16] else none
              | _ :: _ => none
            else none
          else
            match b64CharVal c3 with
            | some v3 =>
                if c4 = '=' then
                  match rest with
                  | [] =>
                      if v3 % 4 = 0 then some [v1 * 4 + v2 / 16, v2 % 16 * 16 + v3 / 4]
                      else none
                  | _ :: _ => none
                else
                  match b64CharVal c4 with
                  | some v4 =>
                      match b64DecodeCore rest with
                      | some tail =>
                          some ((v1 * 4 + v2 / 16) :: (v2 % 16 * 16 + v3 / 4) ::
                                (v3 % 4 * 64 + v4) :: tail)
                      | none => none
                  | none => none
            | none => none
      | _, _ => none
  | _ => none

/-- Standard base64 decoding of a string. -/
def b64Decode (s : String) : Option (List Nat) := b64DecodeCore s.data

/-- JSON values, with object fields in insertion order (Python dicts
preserve insertion order). -/
inductive Json where
  | str (s : String)
  | bool (b : Bool)
  | arr (xs : List Json)
  | obj (fields : List (String × Json))
deriving Repr

/-- `create_api_passthrough_json`'s document: the fixed envelope around the
base64 text, with `ObjectIdentifier` inserted first, then `Value`, then
`Critical`, exactly as the source assigns them. -/
def create_api_passthrough_json (encoded : String) : Json :=
  .obj [("Extensions", .obj [("CustomExtensions", .arr [
    .obj [("ObjectIdentifier", .str "2.5.29.30"),
          ("Value", .str encoded),
          ("Critical", .bool true)]])])]

/-- A run of `n` spaces. -/
def indentStr (n : Nat) : String := ⟨List.replicate n ' '⟩

mutual

/-- Modelled from the spec: `json.dump(..., indent=4)` pretty-printing
(string escaping is elided — every string this tool emits is base64 text or
a fixed OID, containing no character that needs escaping). -/
def renderJson : Json → Nat → String
  | .str s, _ => "\"" ++ s ++ "\""
  | .bool b, _ => if b then "true" else "false"
  | .arr xs, ind =>
      "[\n" ++ renderItems xs (ind + 4) ++ "\n" ++ indentStr ind ++ "]"
  | .obj fs, ind =>
      "\x7b\n" ++ renderFields fs (ind + 4) ++ "\n" ++ indentStr ind ++ "\x7d"

/-- Render the elements of a JSON array, one per line. -/
def renderItems : List Json → Nat → String
  | [], _ => ""
  | [x], ind => indentStr ind ++ renderJson x ind
  | x :: y :: rest, ind =>
      indentStr ind ++ renderJson x ind ++ ",\n" ++ renderItems (y :: rest) ind

/-- Render the fields of a JSON object, one per line. -/
def renderFields : List (String × Json) → Nat → String
  | [], _ => ""
  | [(k, v)], ind => indentStr ind ++ "\"" ++ k ++ "\": " ++ renderJson v ind
  | (k, v) :: f :: rest, ind =>
      indentStr ind ++ "\"" ++ k ++ "\": " ++ renderJson v ind ++ ",\n" ++
      renderFields (f :: rest) ind

end

/-- Everything a successful run produces: the DER bytes, their base64 text,
and the JSON document handed to the file writer. -/
structure RunOutput where
  derBytes : List Nat
  encoded : String
  json : Json

/-- `encode_name_constraints`: build the NameConstraints structure, DER-encode
it, base64 it, and build the API passthrough JSON. -/
def encode_name_constraints (p e : Option (List GeneralName)) :
    Except PyError RunOutput :=
  match encodeNameConstraintsE p e with
  | .error err => .error err
  | .ok bytes => .ok ⟨bytes, b64Encode bytes, create_api_passthrough_json (b64Encode bytes)⟩

/-- The whole program: `main`'s constraint building followed by
`encode_name_constraints`. -/
def runProgram (args : Args) : Except PyError RunOutput :=
  match runMain args with
  | .error e => .error e
  | .ok s => encode_name_constraints s.permitted s.excluded

/-- The fixed output file name. -/
def outputFileName : String := "api_passthrough_config.json"

/-- A file system as a write history: the most recent write to a path wins. -/
def FileSys := List (String × String)

/-- Write (create or overwrite) a file. -/
def writeFileFS (fs : FileSys) (path content : String) : FileSys :=
  (path, content) :: fs

/-- Read a file, `none` when it was never written. -/
def readFileFS (fs : FileSys) (path : String) : Option String :=
  match fs with
  | [] => none
  | (p, c) :: rest => if p = path then some c else readFileFS rest path

/-- A full run against a file system: only a successful run reaches the
file write in `create_api_passthrough_json`; every error leaves the file
system untouched. -/
def runWithFS (args : Args) (fs : FileSys) : FileSys :=
  match runProgram args with
  | .ok out => writeFileFS fs outputFileName (renderJson out.json 0)
  | .error _ => fs

/-- Parse DER definite-length octets: short form below 128, else `0x80 + k`
followed by `k` big-endian value octets. Returns the length and the rest. -/
def parseLen : List Nat → Option (Nat × List Nat)
  | [] => none
  | b :: rest =>
      if b < 128 then some (b, rest)
      else
        let k := b - 128
        if k = 0 then none
        else if k ≤ rest.length then
          some ((rest.take k).foldl (fun a d => a * 256 + d) 0, rest.drop k)
        else none

/-- Parse one DER tag-length-value triple: tag, content octets, remainder. -/
def parseTLV : List Nat → Option (Nat × List Nat × List Nat)
  | [] => none
  | t :: rest =>
      match parseLen rest with
      | some (n, rest2) =>
          if n ≤ rest2.length then some (t, rest2.take n, rest2.drop n) else none
      | none => none

/-- Decode a GeneralName from its tag and content octets (DNS context tag 2,
URI context tag 6, IA5String content). -/
def parseGeneralName (t : Nat) (content : List Nat) : Option GeneralName :=
  if t = 0x82 then some (.dnsName ⟨content.map Char.ofNat⟩)
  else if t = 0x86 then some (.uri ⟨content.map Char.ofNat⟩)
  else none

/-- Decode a SEQUENCE OF GeneralSubtree from content octets (fuelled: each
subtree consumes at least one octet, so any fuel of at least the octet count
suffices). -/
def parseSubtrees : Nat → List Nat → Option (List GeneralName)
  | _, [] => some []
  | 0, _ :: _ => none
  | fuel + 1, b :: bs =>
      match parseTLV (b :: bs) with
      | some (t, content, rest) =>
          if t = 0x30 then
            match parseTLV content with
            | some (tg, gc, inner) =>
                if inner.isEmpty then
                  match parseGeneralName tg gc with
                  | some g =>
                      match parseSubtrees fuel rest with
                      | some gs => some (g :: gs)
                      | none => none
                  | none => none
                else none
            | none => none
          else none
      | none => none

/-- Decode a DER NameConstraints value: the outer SEQUENCE with an optional
permittedSubtrees field ([0], 0xA0) followed by an optional excludedSubtrees
field ([1], 0xA1). -/
def decodeNameConstraints (bs : List Nat) :
    Option (Option (List GeneralName) × Option (List GeneralName)) :=
  match parseTLV bs with
  | some (t, content, rest) =>
      if t = 0x30 ∧ rest = [] then
        match parseTLV content with
        | some (0xA0, pc, rest2) =>
            match parseSubtrees pc.length pc with
            | some p =>
                match rest2 with
                | [] => some (some p, none)
                | _ :: _ =>
                    match parseTLV rest2 with
                    | some (0xA1, ec, rest3) =>
                        if rest3 = [] then
                          match parseSubtrees ec.length ec with
                          | some e => some (some p, some e)
                          | none => none
                        else none
                    | _ => none
            | none => none
        | some (0xA1, ec, rest2) =>
            if rest2 = [] then
              match parseSubtrees ec.length ec with
              | some e => some (none, some e)
              | none => none
            else none
        | _ => none
      else none
  | none => none

theorem DNSName_ok {s : String} (h : validDNSName s = true) :
    DNSName s = .ok (.dnsName s) := by
  simp [DNSName, h]

theorem URI_ok {s : String} (h : validUri s = true) :
    UniformResourceIdentifier s = .ok (.uri s) := by
  simp [UniformResourceIdentifier, h]

theorem appendEntries_ok (mk : String → Except PyError GeneralName)
    (ctor : String → GeneralName) :
    ∀ (l : List String) (st : Store) (i : Nat),
      (∀ s ∈ l, mk s = .ok (ctor s)) →
      appendEntries st i mk l = .ok (appendList st i (l.map ctor)) := by
  intro l
  induction l with
  | nil => intro st i _; rfl
  | cons e rest ih =>
      intro st i h
      have he : mk e = .ok (ctor e) := h e (List.mem_cons_self e rest)
      simp only [appendEntries, he, List.map_cons, appendList]
      exact ih _ _ fun s hs => h s (List.mem_cons_of_mem _ hs)

theorem appendList_single :
    ∀ (gs l : List GeneralName), appendList ⟨[l]⟩ 0 gs = ⟨[l ++ gs]⟩
  | [], l => by simp [appendList]
  | g :: gs, l => by
      have hpush : (Store.mk [l]).push 0 g = ⟨[l ++ [g]]⟩ := rfl
      rw [appendList, hpush, appendList_single gs (l ++ [g])]
      simp

theorem runMain_dns_permitted_only (v : String) (hv : truthy (some v) = true)
    (hvalid : ∀ s ∈ splitComma v, validDNSName s = true) :
    runMain ⟨some v, none, none, none⟩ =
      .ok ⟨some ((splitComma v).map .dnsName), none⟩ := by
  have happ := appendEntries_ok DNSName GeneralName.dnsName (splitComma v) ⟨[[]]⟩ 0
      fun s hs => DNSName_ok (hvalid s hs)
  rw [appendList_single] at happ
  have hv' : v.data.isEmpty = false := by simpa [truthy] using hv
  simp only [runMain, permittedBlock, excludedBlock, truthy, hv', Option.getD_some,
    Bool.not_false, Bool.not_true, Bool.not_not, Bool.false_and, Bool.and_false,
    if_true, if_false, Store.alloc, List.length_nil, List.nil_append, happ,
    Bool.false_eq_true, Bool.true_and, Bool.and_true]
  rfl

theorem runMain_dns_excluded_only (v : String) (hv : truthy (some v) = true)
    (hvalid : ∀ s ∈ splitComma v, validDNSName s = true) :
    runMain ⟨none, some v, none, none⟩ =
      .ok ⟨none, some ((splitComma v).map .dnsName)⟩ := by
  have happ := appendEntries_ok DNSName GeneralName.dnsName (splitComma v) ⟨[[]]⟩ 0
      fun s hs => DNSName_ok (hvalid s hs)
  rw [appendList_single] at happ
  have hv' : v.data.isEmpty = false := by simpa [truthy] using hv
  simp only [runMain, permittedBlock, excludedBlock, truthy, hv', Option.getD_some,
    Bool.not_false, Bool.not_true, Bool.not_not, Bool.false_and, Bool.and_false,
    Bool.true_and, Bool.and_true, if_true, if_false, Store.alloc, List.length_nil,
    List.nil_append, happ, Bool.false_eq_true]
  rfl

theorem runMain_uri_permitted_only (v : String) (hv : truthy (some v) = true)
    (hvalid : ∀ s ∈ splitComma v, validUri s = true) :
    runMain ⟨none, none, some v, none⟩ =
      .ok ⟨some ((splitComma v).map .uri), none⟩ := by
  have happ := appendEntries_ok UniformResourceIdentifier GeneralName.uri
      (splitComma v) ⟨[[]]⟩ 0 fun s hs => URI_ok (hvalid s hs)
  rw [appendList_single] at happ
  have hv' : v.data.isEmpty = false := by simpa [truthy] using hv
  simp only [runMain, permittedBlock, excludedBlock, truthy, hv', Option.getD_some,
    Bool.not_false, Bool.not_true, Bool.not_not, Bool.false_and, Bool.and_false,
    Bool.true_and, Bool.and_true, if_true, if_false, Store.alloc, List.length_nil,
    List.nil_append, happ, Bool.false_eq_true]
  rfl

theorem runMain_uri_excluded_only (v : String) (hv : truthy (some v) = true)
    (hvalid : ∀ s ∈ splitComma v, validUri s = true) :
    runMain ⟨none, none, none, some v⟩ =
      .ok ⟨none, some ((splitComma v).map .uri)⟩ := by
  have happ := appendEntries_ok UniformResourceIdentifier GeneralName.uri
      (splitComma v) ⟨[[]]⟩ 0 fun s hs => URI_ok (hvalid s hs)
  rw [appendList_single] at happ
  have hv' : v.data.isEmpty = false := by simpa [truthy] using hv
  simp only [runMain, permittedBlock, excludedBlock, truthy, hv', Option.getD_some,
    Bool.not_false, Bool.not_true, Bool.not_not, Bool.false_and, Bool.and_false,
    Bool.true_and, Bool.and_true, if_true, if_false, Store.alloc, List.length_nil,
    List.nil_append, happ, Bool.false_eq_true]
  rfl

theorem runMain_both_excluded_no_permitted (dv uv : String)
    (hd : truthy (some dv) = true) (hu : truthy (some uv) = true)
    (hvalid : ∀ s ∈ splitComma dv, validDNSName s = true) :
    runMain ⟨none, some dv, none, some uv⟩ = .error .attributeError := by
  have happ := appendEntries_ok DNSName GeneralName.dnsName (splitComma dv) ⟨[[]]⟩ 0
      fun s hs => DNSName_ok (hvalid s hs)
  rw [appendList_single] at happ
  have hd' : dv.data.isEmpty = false := by simpa [truthy] using hd
  have hu' : uv.data.isEmpty = false := by simpa [truthy] using hu
  simp only [runMain, permittedBlock, excludedBlock, truthy, hd', hu', Option.getD_some,
    Bool.not_false, Bool.not_true, Bool.not_not, Bool.false_and, Bool.and_false,
    Bool.true_and, Bool.and_true, if_true, if_false, Store.alloc, List.length_nil,
    List.nil_append, happ, Bool.false_eq_true]

theorem runProgram_error_of_runMain (args : Args) (e : PyError)
    (h : runMain args = .error e) : runProgram args = .error e := by
  simp [runProgram, h]

theorem runWithFS_of_error (args : Args) (e : PyError)
    (h : runProgram args = .error e) : ∀ fs, runWithFS args fs = fs := by
  intro fs
  simp [runWithFS, h]

/-- Claim C3: when all four inputs are absent or empty, the run fails with
the configuration error (the source's explicit `ValueError`) before any
GeneralName construction or encoding, and no output file is written. -/
theorem claim_c3_zero_flags_configuration_error (args : Args)
    (h1 : truthy args.DnsPermitted = false) (h2 : truthy args.DnsExcluded = false)
    (h3 : truthy args.UriPermitted = false) (h4 : truthy args.UriExcluded = false) :
    runMain args = .error .configurationError ∧ ∀ fs, runWithFS args fs = fs := by
  have hm : runMain args = .error .configurationError := by
    simp [runMain, h1, h2, h3, h4]
  exact ⟨hm, runWithFS_of_error args _ (runProgram_error_of_runMain args _ hm)⟩

/-- Witness for C3 at the all-absent invocation. -/
theorem claim_c3_witness :
    runMain ⟨none, none, none, none⟩ = .error .configurationError ∧
    runWithFS ⟨none, none, none, none⟩ [] = [] :=
  ⟨(claim_c3_zero_flags_configuration_error ⟨none, none, none, none⟩ rfl rfl rfl rfl).1,
   (claim_c3_zero_flags_configuration_error ⟨none, none, none, none⟩ rfl rfl rfl rfl).2 []⟩

/-- Claim C10: when both excluded flags are supplied and no permitted flag
is, the `UriExcluded` block's initializer re-binds the excluded variable to
the still-`None` permitted variable, so the run aborts with `AttributeError`
(the `None.append` null dereference) — none of the three specified error
kinds — and no output file is written. -/
theorem claim_c10_both_excluded_null_deref (dv uv : String)
    (hd : truthy (some dv) = true) (hu : truthy (some uv) = true)
    (hvalid : ∀ s ∈ splitComma dv, validDNSName s = true) :
    runMain ⟨none, some dv, none, some uv⟩ = .error .attributeError ∧
    ∀ fs, runWithFS ⟨none, some dv, none, some uv⟩ fs = fs := by
  have hm := runMain_both_excluded_no_permitted dv uv hd hu hvalid
  exact ⟨hm, runWithFS_of_error _ _ (runProgram_error_of_runMain _ _ hm)⟩

/-- Witness for C10 at `DnsExcluded=".x.com"`, `UriExcluded="http://y.com"`. -/
theorem claim_c10_witness :
    runMain ⟨none, some ".x.com", none, some "http://y.com"⟩ = .error .attributeError ∧
    runWithFS ⟨none, some ".x.com", none, some "http://y.com"⟩ [] = [] :=
  ⟨(claim_c10_both_excluded_null_deref ".x.com" "http://y.com" rfl rfl (by decide)).1,
   (claim_c10_both_excluded_null_deref ".x.com" "http://y.com" rfl rfl (by decide)).2 []⟩

/-- Claim C1 (evaluation at a failing input): with `DnsPermitted=".p.com"`,
`DnsExcluded=".x.com"` and `UriExcluded="http://y.com"`, the buggy excluded
initializer aliases the excluded variable to the permitted list, so
`encode_name_constraints` receives a permitted list that has absorbed the
URI excluded entry and an excluded list that has lost the DNS excluded
entry `.x.com` — not the DNS-then-URI excluded sequence the claim states. -/
theorem claim_c1_aliasing_merges_lists :
    runMain ⟨some ".p.com", some ".x.com", none, some "http://y.com"⟩ =
      .ok ⟨some [.dnsName ".p.com", .uri "http://y.com"],
           some [.dnsName ".p.com", .uri "http://y.com"]⟩ ∧
    runMain ⟨some ".p.com", some ".x.com", none, some "http://y.com"⟩ ≠
      .ok ⟨some [.dnsName ".p.com"],
           some [.dnsName ".x.com", .uri "http://y.com"]⟩ := by
  refine ⟨rfl, fun h => ?_⟩
  rw [show runMain ⟨some ".p.com", some ".x.com", none, some "http://y.com"⟩ =
      .ok ⟨some [.dnsName ".p.com", .uri "http://y.com"],
           some [.dnsName ".p.com", .uri "http://y.com"]⟩ from rfl] at h
  simp at h

/-- Claim C2 (evaluation at a failing input): `".a .com"` is indeed invalid
under the modelled name grammar, and an invalid lone `DnsPermitted` entry
does fail with `InvalidNameError`; but the same invalid entry supplied via
`UriExcluded` after `DnsExcluded` (no permitted flags) aborts with
`AttributeError` before the GeneralName constructor ever runs, so the claim
does not hold of every invalid entry. -/
theorem claim_c2_invalid_entry_eval :
    validDNSName ".a .com" = false ∧ validUri ".a .com" = false ∧
    runMain ⟨some ".a .com", none, none, none⟩ = .error .invalidNameError ∧
    runMain ⟨none, some ".x.com", none, some ".a .com"⟩ = .error .attributeError :=
  ⟨rfl, rfl, rfl, rfl⟩

theorem splitCommaChars_ne_nil : ∀ l : List Char, splitCommaChars l ≠ []
  | [] => by simp [splitCommaChars]
  | c :: rest => by
      simp only [splitCommaChars]
      cases splitCommaChars rest with
      | nil => simp
      | cons g gs => by_cases hc : c = ',' <;> simp [hc]

theorem splitComma_ne_nil (s : String) : splitComma s ≠ [] := by
  simp [splitComma, splitCommaChars_ne_nil]

theorem encode_name_constraints_ok (p e : Option (List GeneralName)) (out : RunOutput)
    (h : encode_name_constraints p e = .ok out) :
    out = ⟨encodeNameConstraints p e, b64Encode (encodeNameConstraints p e),
           create_api_passthrough_json (b64Encode (encodeNameConstraints p e))⟩ := by
  unfold encode_name_constraints at h
  cases he : encodeNameConstraintsE p e with
  | error err => rw [he] at h; exact absurd h (by simp)
  | ok bytes =>
      rw [he] at h
      have hb : bytes = encodeNameConstraints p e := by
        unfold encodeNameConstraintsE at he
        split at he
        · exact absurd he (by simp)
        · simpa [eq_comm] using he
      subst hb
      simp only [Except.ok.injEq] at h
      exact h.symm

/-- Claim C4: a constraints field is omitted entirely from the outer DER
SEQUENCE when its sequence is absent or empty (no empty SEQUENCE OF is ever
emitted), and a one-sided input populates exactly its own field — both at
the encoder and for a whole run that supplies only `DnsPermitted`. -/
theorem claim_c4_empty_field_omitted (gs : List GeneralName) (h : gs ≠ []) :
    encodeNameConstraints (some gs) none =
      tlv 0x30 (tlv 0xA0 (gs.map encodeGeneralSubtree).flatten) ∧
    encodeNameConstraints none (some gs) =
      tlv 0x30 (tlv 0xA1 (gs.map encodeGeneralSubtree).flatten) ∧
    (∀ t, subtreesField t none = [] ∧ subtreesField t (some []) = []) ∧
    ∀ v : String, truthy (some v) = true →
      (∀ s ∈ splitComma v, validDNSName s = true) →
      runProgram ⟨some v, none, none, none⟩ =
        .ok ⟨tlv 0x30 (tlv 0xA0 ((((splitComma v).map GeneralName.dnsName).map
                encodeGeneralSubtree).flatten)),
             b64Encode (tlv 0x30 (tlv 0xA0 ((((splitComma v).map GeneralName.dnsName).map
                encodeGeneralSubtree).flatten))),
             create_api_passthrough_json (b64Encode (tlv 0x30 (tlv 0xA0
                ((((splitComma v).map GeneralName.dnsName).map
                  encodeGeneralSubtree).flatten))))⟩ := by
  have hne : gs.isEmpty = false := by simpa [List.isEmpty_iff] using h
  refine ⟨by simp [encodeNameConstraints, subtreesField, hne],
          by simp [encodeNameConstraints, subtreesField, hne],
          fun t => ⟨rfl, rfl⟩, fun v hv hvalid => ?_⟩
  have hm := runMain_dns_permitted_only v hv hvalid
  have hmap : ((splitComma v).map GeneralName.dnsName).isEmpty = false := by
    simpa [List.isEmpty_iff] using splitComma_ne_nil v
  simp only [runProgram, hm, encode_name_constraints, encodeNameConstraintsE,
    Option.getD_some, Option.getD_none, hmap, List.isEmpty_nil, Bool.false_and,
    Bool.and_true, Bool.false_eq_true, if_false, encodeNameConstraints, subtreesField,
    List.append_nil]

/-- Witness for C4 at the spec's example `DnsPermitted=".a.com,.b.com"`. -/
theorem claim_c4_witness :
    encodeNameConstraints (some [GeneralName.dnsName ".a.com", .dnsName ".b.com"]) none =
      tlv 0x30 (tlv 0xA0 (([GeneralName.dnsName ".a.com", .dnsName ".b.com"].map
        encodeGeneralSubtree).flatten)) ∧
    runProgram ⟨some ".a.com,.b.com", none, none, none⟩ =
      .ok ⟨tlv 0x30 (tlv 0xA0 ((((splitComma ".a.com,.b.com").map GeneralName.dnsName).map
              encodeGeneralSubtree).flatten)),
           b64Encode (tlv 0x30 (tlv 0xA0 ((((splitComma ".a.com,.b.com").map
              GeneralName.dnsName).map encodeGeneralSubtree).flatten))),
           create_api_passthrough_json (b64Encode (tlv 0x30 (tlv 0xA0
              ((((splitComma ".a.com,.b.com").map GeneralName.dnsName).map
                encodeGeneralSubtree).flatten))))⟩ :=
  ⟨(claim_c4_empty_field_omitted [GeneralName.dnsName ".a.com", .dnsName ".b.com"]
      (by simp)).1,
   (claim_c4_empty_field_omitted [GeneralName.dnsName ".a.com", .dnsName ".b.com"]
      (by simp)).2.2.2 ".a.com,.b.com" rfl (by decide)⟩

/-- Claim C5: every successful run's JSON document is exactly the fixed
envelope with `ObjectIdentifier = "2.5.29.30"`, `Critical = true`, and
`Value` the standard padded base64 of the run's DER bytes. -/
theorem claim_c5_json_shape (args : Args) (out : RunOutput)
    (h : runProgram args = .ok out) :
    out.encoded = b64Encode out.derBytes ∧
    out.json = .obj [("Extensions", .obj [("CustomExtensions", .arr [
      .obj [("ObjectIdentifier", .str "2.5.29.30"),
            ("Value", .str (b64Encode out.derBytes)),
            ("Critical", .bool true)]])])] := by
  unfold runProgram at h
  split at h
  · exact absurd h (by simp)
  · have he := encode_name_constraints_ok _ _ _ h
    subst he
    exact ⟨rfl, rfl⟩

/-- The output of the C5 witness run (`DnsPermitted=".a.com"`). -/
def c5Out : RunOutput :=
  ⟨encodeNameConstraints (some [.dnsName ".a.com"]) none,
   b64Encode (encodeNameConstraints (some [.dnsName ".a.com"]) none),
   create_api_passthrough_json (b64Encode (encodeNameConstraints
     (some [.dnsName ".a.com"]) none))⟩

/-- Witness for C5 at `DnsPermitted=".a.com"`. -/
theorem claim_c5_witness :
    runProgram ⟨some ".a.com", none, none, none⟩ = .ok c5Out ∧
    c5Out.json = .obj [("Extensions", .obj [("CustomExtensions", .arr [
      .obj [("ObjectIdentifier", .str "2.5.29.30"),
            ("Value", .str (b64Encode c5Out.derBytes)),
            ("Critical", .bool true)]])])] :=
  ⟨rfl, (claim_c5_json_shape ⟨some ".a.com", none, none, none⟩ c5Out rfl).2⟩

/-- Claim C7: two runs with identical arguments produce identical output
(byte-identical DER, base64 and JSON), and re-running against the same file
system overwrites the output file with byte-identical content. -/
theorem claim_c7_deterministic_idempotent (a1 a2 : Args) (h : a1 = a2) :
    runProgram a1 = runProgram a2 ∧
    ∀ fs, readFileFS (runWithFS a1 (runWithFS a2 fs)) outputFileName =
          readFileFS (runWithFS a2 fs) outputFileName := by
  subst h
  refine ⟨rfl, fun fs => ?_⟩
  unfold runWithFS
  cases hp : runProgram a1 with
  | error e => rfl
  | ok out => simp [writeFileFS, readFileFS]

/-- Witness for C7: re-running `DnsPermitted=".a.com"` on an empty file
system leaves the same file content as the first run. -/
theorem claim_c7_witness :
    runProgram ⟨some ".a.com", none, none, none⟩ =
      runProgram ⟨some ".a.com", none, none, none⟩ ∧
    readFileFS (runWithFS ⟨some ".a.com", none, none, none⟩
        (runWithFS ⟨some ".a.com", none, none, none⟩ [])) outputFileName =
      readFileFS (runWithFS ⟨some ".a.com", none, none, none⟩ []) outputFileName :=
  ⟨(claim_c7_deterministic_idempotent ⟨some ".a.com", none, none, none⟩ _ rfl).1,
   (claim_c7_deterministic_idempotent ⟨some ".a.com", none, none, none⟩ _ rfl).2 []⟩

/-- Claim C8: every supplied flag value is split on `,` (empty pieces and
embedded whitespace kept, nothing trimmed), each DNS entry becomes a
DNS-variant GeneralName and each URI entry a URI-variant GeneralName, and
the resulting sequence preserves the input order. -/
theorem claim_c8_split_and_order (v : String) (hv : truthy (some v) = true) :
    ((∀ s ∈ splitComma v, validDNSName s = true) →
      runMain ⟨some v, none, none, none⟩ =
        .ok ⟨some ((splitComma v).map .dnsName), none⟩ ∧
      runMain ⟨none, some v, none, none⟩ =
        .ok ⟨none, some ((splitComma v).map .dnsName)⟩) ∧
    ((∀ s ∈ splitComma v, validUri s = true) →
      runMain ⟨none, none, some v, none⟩ =
        .ok ⟨some ((splitComma v).map .uri), none⟩ ∧
      runMain ⟨none, none, none, some v⟩ =
        .ok ⟨none, some ((splitComma v).map .uri)⟩) ∧
    splitComma ".a .com, b.com" = [".a .com", " b.com"] :=
  ⟨fun h => ⟨runMain_dns_permitted_only v hv h, runMain_dns_excluded_only v hv h⟩,
   fun h => ⟨runMain_uri_permitted_only v hv h, runMain_uri_excluded_only v hv h⟩,
   rfl⟩

/-- Witness for C8 at `DnsPermitted=".a.com,.b.com"`. -/
theorem claim_c8_witness :
    runMain ⟨some ".a.com,.b.com", none, none, none⟩ =
      .ok ⟨some ((splitComma ".a.com,.b.com").map .dnsName), none⟩ :=
  ((claim_c8_split_and_order ".a.com,.b.com" rfl).1 (by decide)).1

/-- Claim C9: an error anywhere in the run means no output file is written —
the write happens only inside a completed successful encoding. -/
theorem claim_c9_no_file_on_error (args : Args) (e : PyError)
    (h : runProgram args = .error e) :
    (∀ fs, runWithFS args fs = fs) ∧
    ∀ fs, readFileFS (runWithFS args fs) outputFileName =
          readFileFS fs outputFileName := by
  have h1 := runWithFS_of_error args e h
  exact ⟨h1, fun fs => by rw [h1]⟩

/-- Witness for C9: a failing run leaves an existing output file untouched. -/
theorem claim_c9_witness :
    runWithFS ⟨none, none, none, none⟩ [(outputFileName, "old")] =
      [(outputFileName, "old")] :=
  (claim_c9_no_file_on_error ⟨none, none, none, none⟩ .configurationError rfl).1
    [(outputFileName, "old")]

theorem beBytes_lt {n : Nat} (h : n < 256) : beBytes n = [n] := by
  rw [beBytes]
  simp [h]

theorem beBytes_ge {n : Nat} (h : ¬n < 256) :
    beBytes n = beBytes (n / 256) ++ [n % 256] := by
  rw [beBytes]
  simp [h]

theorem foldl_beBytes : ∀ n a : Nat,
    (beBytes n).foldl (fun x d => x * 256 + d) a = a * 256 ^ (beBytes n).length + n := by
  intro n
  induction n using Nat.strong_induction_on with
  | _ n ih =>
    intro a
    by_cases h : n < 256
    · rw [beBytes_lt h]
      simp
    · have hd : n / 256 < n := Nat.div_lt_self (by omega) (by omega)
      rw [beBytes_ge h, List.foldl_append, ih (n / 256) hd a]
      simp only [List.foldl_cons, List.foldl_nil, List.length_append,
        List.length_cons, List.length_nil, Nat.zero_add]
      calc (a * 256 ^ (beBytes (n / 256)).length + n / 256) * 256 + n % 256
          = a * (256 ^ (beBytes (n / 256)).length * 256) + (n / 256 * 256 + n % 256) := by
            ring
        _ = a * 256 ^ ((beBytes (n / 256)).length + 1) + n := by
            rw [← pow_succ, Nat.div_add_mod']

theorem beBytes_length_pos (n : Nat) : 0 < (beBytes n).length := by
  by_cases h : n < 256
  · rw [beBytes_lt h]; simp
  · rw [beBytes_ge h]; simp

theorem parseLen_derLen (n : Nat) (rest : List Nat) :
    parseLen (derLen n ++ rest) = some (n, rest) := by
  by_cases h : n < 128
  · simp [derLen, h, parseLen]
  · have hk := beBytes_length_pos n
    simp only [derLen, h, if_false, List.cons_append, parseLen]
    rw [if_neg (by omega)]
    have h128 : 128 + (beBytes n).length - 128 = (beBytes n).length := by omega
    rw [h128]
    rw [if_neg (by omega)]
    rw [if_pos (by simp)]
    rw [List.take_left, List.drop_left]
    rw [foldl_beBytes]
    simp

theorem parseTLV_tlv (t : Nat) (c rest : List Nat) :
    parseTLV (tlv t c ++ rest) = some (t, c, rest) := by
  simp only [tlv, List.cons_append, List.append_assoc, parseTLV, parseLen_derLen]
  rw [if_pos (by simp)]
  rw [List.take_left, List.drop_left]

theorem parseTLV_tlv0 (t : Nat) (c : List Nat) :
    parseTLV (tlv t c) = some (t, c, []) := by
  have := parseTLV_tlv t c []
  simpa using this

theorem b64CharVal_b64Char : ∀ v : Nat, v < 64 → b64CharVal (b64Char v) = some v := by
  decide

theorem b64Char_ne_pad : ∀ v : Nat, v < 64 → b64Char v ≠ '=' := by
  decide

theorem b64_roundtrip : ∀ bs : List Nat, (∀ b ∈ bs, b < 256) →
    b64DecodeCore (b64EncodeCore bs) = some bs
  | [] => fun _ => rfl
  | [b1] => fun h => by
      have h1 : b1 < 256 := h b1 (by simp)
      simp only [b64EncodeCore, b64DecodeCore,
        b64CharVal_b64Char (b1 / 4) (by omega),
        b64CharVal_b64Char (b1 % 4 * 16) (by omega)]
      simp only [if_true]
      rw [if_pos (show b1 % 4 * 16 % 16 = 0 by omega)]
      have e1 : b1 / 4 * 4 + b1 % 4 * 16 / 16 = b1 := by omega
      rw [e1]
  | [b1, b2] => fun h => by
      have h1 : b1 < 256 := h b1 (by simp)
      have h2 : b2 < 256 := h b2 (by simp)
      simp only [b64EncodeCore, b64DecodeCore,
        b64CharVal_b64Char (b1 / 4) (by omega),
        b64CharVal_b64Char (b1 % 4 * 16 + b2 / 16) (by omega),
        b64CharVal_b64Char (b2 % 16 * 4) (by omega)]
      rw [if_neg (b64Char_ne_pad (b2 % 16 * 4) (by omega))]
      simp only [if_true]
      rw [if_pos (show b2 % 16 * 4 % 4 = 0 by omega)]
      have e1 : b1 / 4 * 4 + (b1 % 4 * 16 + b2 / 16) / 16 = b1 := by omega
      have e2 : (b1 % 4 * 16 + b2 / 16) % 16 * 16 + b2 % 16 * 4 / 4 = b2 := by omega
      rw [e1, e2]
  | b1 :: b2 :: b3 :: rest => fun h => by
      have h1 : b1 < 256 := h b1 (by simp)
      have h2 : b2 < 256 := h b2 (by simp)
      have h3 : b3 < 256 := h b3 (by simp)
      have ih := b64_roundtrip rest fun b hb => h b (by simp [hb])
      simp only [b64EncodeCore, b64DecodeCore,
        b64CharVal_b64Char (b1 / 4) (by omega),
        b64CharVal_b64Char (b1 % 4 * 16 + b2 / 16) (by omega),
        b64CharVal_b64Char (b2 % 16 * 4 + b3 / 64) (by omega),
        b64CharVal_b64Char (b3 % 64) (by omega)]
      rw [if_neg (b64Char_ne_pad (b2 % 16 * 4 + b3 / 64) (by omega)),
        if_neg (b64Char_ne_pad (b3 % 64) (by omega))]
      rw [ih]
      have e1 : b1 / 4 * 4 + (b1 % 4 * 16 + b2 / 16) / 16 = b1 := by omega
      have e2 : (b1 % 4 * 16 + b2 / 16) % 16 * 16 + (b2 % 16 * 4 + b3 / 64) / 4 = b2 := by
        omega
      have e3 : (b2 % 16 * 4 + b3 / 64) % 4 * 64 + b3 % 64 = b3 := by omega
      simp only [e1, e2, e3]

theorem strBytes_map_ofNat (s : String) : (strBytes s).map Char.ofNat = s.data := by
  have hfun : Char.ofNat ∘ Char.toNat = id := funext Char.ofNat_toNat
  simp [strBytes, List.map_map, hfun]

theorem parseGeneralName_encode (g : GeneralName) :
    parseTLV (encodeGeneralName g) =
      some (match g with | .dnsName _ => 0x82 | .uri _ => 0x86,
            strBytes (match g with | .dnsName s => s | .uri s => s), []) ∧
    parseGeneralName (match g with | .dnsName _ => 0x82 | .uri _ => 0x86)
      (strBytes (match g with | .dnsName s => s | .uri s => s)) = some g := by
  cases g with
  | dnsName s => exact ⟨parseTLV_tlv0 0x82 (strBytes s),
      by simp [parseGeneralName, strBytes_map_ofNat]⟩
  | uri s => exact ⟨parseTLV_tlv0 0x86 (strBytes s),
      by simp [parseGeneralName, strBytes_map_ofNat]⟩

theorem encodeGeneralSubtree_length_pos (g : GeneralName) :
    0 < (encodeGeneralSubtree g).length := by
  cases g <;> simp [encodeGeneralSubtree, tlv]

theorem length_le_flatten (gs : List GeneralName) :
    gs.length ≤ ((gs.map encodeGeneralSubtree).flatten).length := by
  induction gs with
  | nil => simp
  | cons g rest ih =>
      have := encodeGeneralSubtree_length_pos g
      simp only [List.map_cons, List.flatten_cons, List.length_cons, List.length_append]
      omega

theorem parseSubtrees_encode : ∀ (gs : List GeneralName) (fuel : Nat),
    gs.length ≤ fuel →
    parseSubtrees fuel ((gs.map encodeGeneralSubtree).flatten) = some gs := by
  intro gs
  induction gs with
  | nil => intro fuel _; cases fuel <;> rfl
  | cons g rest ih =>
      intro fuel hf
      obtain ⟨f, rfl⟩ : ∃ f, fuel = f + 1 := ⟨fuel - 1, by simp at hf; omega⟩
      have hb : ((g :: rest).map encodeGeneralSubtree).flatten =
          0x30 :: (derLen (encodeGeneralName g).length ++
            (encodeGeneralName g ++ (rest.map encodeGeneralSubtree).flatten)) := by
        simp [encodeGeneralSubtree, tlv]
      rw [hb]
      have htlv : parseTLV (0x30 :: (derLen (encodeGeneralName g).length ++
          (encodeGeneralName g ++ (rest.map encodeGeneralSubtree).flatten))) =
          some (0x30, encodeGeneralName g, (rest.map encodeGeneralSubtree).flatten) := by
        have := parseTLV_tlv 0x30 (encodeGeneralName g)
            ((rest.map encodeGeneralSubtree).flatten)
        simpa [tlv, List.append_assoc] using this
      have hg := parseGeneralName_encode g
      simp only [parseSubtrees, htlv, hg.1, hg.2, List.isEmpty_nil, if_true,
        ih f (by simp at hf; omega)]

theorem decode_encode (P E : List GeneralName) (hP : P ≠ []) (hE : E ≠ []) :
    decodeNameConstraints (encodeNameConstraints (some P) (some E)) =
      some (some P, some E) := by
  have hPe : P.isEmpty = false := by simpa [List.isEmpty_iff] using hP
  have hEe : E.isEmpty = false := by simpa [List.isEmpty_iff] using hE
  have hb : encodeNameConstraints (some P) (some E) =
      tlv 0x30 (tlv 0xA0 ((P.map encodeGeneralSubtree).flatten) ++
        tlv 0xA1 ((E.map encodeGeneralSubtree).flatten)) := by
    simp [encodeNameConstraints, subtreesField, hPe, hEe]
  rw [hb]
  simp only [decodeNameConstraints, parseTLV_tlv0, parseTLV_tlv,
    parseSubtrees_encode P _ (length_le_flatten P),
    parseSubtrees_encode E _ (length_le_flatten E)]
  simp [tlv]

/-- Claim C6: for non-empty permitted/excluded lists of valid DNS names,
base64-decoding the encoded Value recovers the DER bytes exactly, and
DER-decoding those bytes reproduces the same ordered DNS name lists (the
round-trip law). The `hb` hypothesis states that the encoding is a genuine
byte string (every octet below 256); it holds for every input small enough
to exist, since an octet out of range could only arise in a long-form
length prefix of a content field of at least `256 ^ 127` octets. -/
theorem claim_c6_encode_decode_roundtrip (ps es : List String)
    (hp : ps ≠ []) (he : es ≠ [])
    (hps : ∀ s ∈ ps, validDNSName s = true) (hes : ∀ s ∈ es, validDNSName s = true)
    (hb : ∀ b ∈ encodeNameConstraints (some (ps.map .dnsName)) (some (es.map .dnsName)),
      b < 256) :
    b64Decode (b64Encode (encodeNameConstraints (some (ps.map .dnsName))
        (some (es.map .dnsName)))) =
      some (encodeNameConstraints (some (ps.map .dnsName)) (some (es.map .dnsName))) ∧
    decodeNameConstraints (encodeNameConstraints (some (ps.map .dnsName))
        (some (es.map .dnsName))) =
      some (some (ps.map .dnsName), some (es.map .dnsName)) := by
  refine ⟨b64_roundtrip _ hb, decode_encode _ _ ?_ ?_⟩ <;> simp [hp, he]

/-- Witness for C6 at permitted `[".a.com"]`, excluded `[".b.com"]`. -/
theorem claim_c6_witness :
    b64Decode (b64Encode (encodeNameConstraints (some ([".a.com"].map .dnsName))
        (some ([".b.com"].map .dnsName)))) =
      some (encodeNameConstraints (some ([".a.com"].map .dnsName))
        (some ([".b.com"].map .dnsName))) ∧
    decodeNameConstraints (encodeNameConstraints (some ([".a.com"].map .dnsName))
        (some ([".b.com"].map .dnsName))) =
      some (some ([".a.com"].map .dnsName), some ([".b.com"].map .dnsName)) :=
  claim_c6_encode_decode_roundtrip [".a.com"] [".b.com"] (by simp) (by simp)
    (by decide) (by decide) (by decide)

end NCE
